import Mathlib

/-!
Shallow embedding of `tensorpack/callbacks/group.py`.

The module orchestrates a list of callbacks: a `CallbackTimeLogger`
(wall-clock profiling of epoch triggers), a `TestCallbackContext`
(lazily built secondary graph/session for test-kind callbacks), and the
`Callbacks` container dispatching the four lifecycle phases.

Modelling choices:
  * wall-clock durations are rationals (`ℚ`); each operation's elapsed
    time is a parameter of the run;
  * Python exceptions are `Except Err`; an exception raised by a callback
    body is `Err.callbackErr`, `raise RuntimeError(msg)` is
    `Err.runtimeError msg`, access to a never-assigned attribute is
    `Err.attributeError`;
  * every lifecycle-method invocation, session construction, checkpoint
    restore and log emission is recorded as an `Event`, so that ordering
    and counting properties can be stated about traces;
  * a `tf.Session` instance is identified by a `Nat` id drawn from a
    fresh-id supply, so that "the same instance is reused" is stated as
    equality of ids.
-/

/-- Kind tag of a callback: `TrainCallbackType`, `TestCallbackType`, or any
other value of `cb.type` (which the constructor of `Callbacks` rejects).
The `other` payload is `str(cb.type)`. -/
inductive CbKind where
  | train : CbKind
  | test : CbKind
  | other : String → CbKind
deriving DecidableEq

/-- `True` exactly for `TrainCallbackType` (`isinstance(cb.type, TrainCallbackType)`). -/
def CbKind.isTrain : CbKind → Bool
  | CbKind.train => true
  | _ => false

/-- `True` exactly for `TestCallbackType`. -/
def CbKind.isTest : CbKind → Bool
  | CbKind.test => true
  | _ => false

/-- `str(cb.type)`, used in the constructor's error message. -/
def CbKind.str : CbKind → String
  | CbKind.train => "TrainCallbackType"
  | CbKind.test => "TestCallbackType"
  | CbKind.other s => s

/-- Python exceptions that can escape the code under study. -/
inductive Err where
  | runtimeError : String → Err
  | valueError : String → Err
  | callbackErr : String → Err
  | attributeError : String → Err
deriving DecidableEq

/-- Observable events of a run: lifecycle-method invocations (the `Bool`
records whether the call happens inside the secondary test context),
construction of the test session, the call to `restore_checkpoint`,
`logger.info` messages, and the timer digest line. -/
inductive Event where
  | beforeTrainCall : String → Bool → Event
  | afterTrainCall : String → Bool → Event
  | triggerStepCall : String → Event
  | triggerEpochCall : String → Bool → Event
  | createTestSession : Nat → Event
  | restoreCheckpointCall : Event
  | infoLog : String → Event
  | timerLog : ℚ → List (String × ℚ) → Event
deriving DecidableEq

/-- A callback as seen from `group.py`: only its kind and the observable
behaviour of its four lifecycle methods matter. `name` models
`type(cb).__name__`; each `...Err` field is `some msg` when that lifecycle
method raises, and `triggerEpochTime` is the wall-clock duration of its
`trigger_epoch` body. -/
structure Callback where
  name : String
  kind : CbKind
  beforeTrainErr : Option String := none
  afterTrainErr : Option String := none
  triggerStepErr : Option String := none
  triggerEpochErr : Option String := none
  triggerEpochTime : ℚ := 0
deriving DecidableEq

/-- Result of a lifecycle method body: `Except.ok` on normal return,
`Except.error (Err.callbackErr e)` when the callback raises `e`. -/
def errOf : Option String → Except Err Unit
  | some e => Except.error (Err.callbackErr e)
  | none => Except.ok ()

/-- `CallbackTimeLogger`: a list of `(name, duration)` pairs and a running
total, exactly the two attributes set in `__init__`. -/
structure CallbackTimeLogger where
  times : List (String × ℚ)
  tot : ℚ
deriving DecidableEq

/-- `CallbackTimeLogger.__init__`: empty list, zero total. -/
def CallbackTimeLogger.init : CallbackTimeLogger := ⟨[], 0⟩

/-- `CallbackTimeLogger.add`: `self.tot += time; self.times.append((name, time))`. -/
def CallbackTimeLogger.add (tm : CallbackTimeLogger) (name : String) (t : ℚ) :
    CallbackTimeLogger :=
  ⟨tm.times ++ [(name, t)], tm.tot + t⟩

/-- `CallbackTimeLogger.timed_callback(name)`: a `@contextmanager` whose body
is `s = time.time(); yield; self.add(name, time.time() - s)`. The wrapped
block is given as its elapsed time together with its outcome. On normal
completion of the block, control returns to the generator after the `yield`
and `add` runs; when the block raises, the exception is thrown into the
generator at the `yield` point, so the statement after `yield` never runs
and the exception propagates. -/
def CallbackTimeLogger.timed_callback (tm : CallbackTimeLogger) (name : String)
    (body : ℚ × Except Err Unit) : CallbackTimeLogger × Except Err Unit :=
  match body.2 with
  | Except.ok _ => (tm.add name body.1, Except.ok ())
  | Except.error e => (tm, Except.error e)

/-- `CallbackTimeLogger.log`: return `none` when `self.tot < 3` (nothing is
emitted); otherwise the emitted line, modelled as the total together with
the digest entries, the recorded `(name, t)` with `t / self.tot > 0.3`
and `t > 1`. -/
def CallbackTimeLogger.log (tm : CallbackTimeLogger) :
    Option (ℚ × List (String × ℚ)) :=
  if tm.tot < 3 then none
  else some (tm.tot,
    tm.times.filter (fun p => decide ((3 : ℚ) / 10 < p.2 / tm.tot) &&
      decide ((1 : ℚ) < p.2)))

/-- `TestCallbackContext` state: `__init__` sets only `self.sess = None`;
`self.graph` and `self.saver` do not exist until the first
`before_train_context` assigns them, so each is an `Option` of an
instance id. -/
structure TestCallbackContext where
  sess : Option Nat
  graph : Option Nat
  saver : Option Nat
deriving DecidableEq

/-- `TestCallbackContext.__init__`. -/
def TestCallbackContext.init : TestCallbackContext := ⟨none, none, none⟩

/-- Result of entering a context-managing scope: the updated context, the
next fresh instance id, and the events emitted on entry. -/
structure CtxStep where
  ctx : TestCallbackContext
  fresh : Nat
  evs : List Event
deriving DecidableEq

/-- `TestCallbackContext.before_train_context(trainer)`: when `self.sess`
is `None`, build the test graph and session (`create_test_session`),
store the session, its graph and a new `Saver`; otherwise reuse the
stored instances. Either way the scope then makes the stored graph and
session the ambient defaults. -/
def TestCallbackContext.before_train_context (ctx : TestCallbackContext)
    (fresh : Nat) : CtxStep :=
  match ctx.sess with
  | none =>
    ⟨{ sess := some fresh, graph := some fresh, saver := some fresh },
      fresh + 1, [Event.createTestSession fresh]⟩
  | some _ => ⟨ctx, fresh, []⟩

/-- The message of the `RuntimeError` raised when no checkpoint state exists. -/
def missingCkptMsg : String :=
  "Cannot find a checkpoint state. Do you forget to use ModelSaver before all TestCallback?"

/-- `TestCallbackContext.restore_checkpoint`: look up the latest checkpoint
state (`ckpt` is the lookup's result, `none` when no checkpoint was ever
produced). If `none`, raise `RuntimeError(missingCkptMsg)`. Otherwise log
the restored path, then call `self.saver.restore` (an `AttributeError` if
`saver` was never assigned). -/
def TestCallbackContext.restore_checkpoint (ctx : TestCallbackContext)
    (ckpt : Option String) : List Event × Except Err Unit :=
  match ckpt with
  | none => ([Event.restoreCheckpointCall],
      Except.error (Err.runtimeError missingCkptMsg))
  | some path =>
    match ctx.saver with
    | none => ([Event.restoreCheckpointCall,
        Event.infoLog ("Restore checkpoint from " ++ path)],
        Except.error (Err.attributeError "saver"))
    | some _ => ([Event.restoreCheckpointCall,
        Event.infoLog ("Restore checkpoint from " ++ path)],
        Except.ok ())

deriving instance DecidableEq for Except

/-- Result of a `_before_train` run: final context, next fresh id, event
trace, and outcome. -/
structure RunResult where
  ctx : TestCallbackContext
  fresh : Nat
  evs : List Event
  res : Except Err Unit
deriving DecidableEq

/-- The loop of `Callbacks._before_train`: for each callback, a Train-kind
one gets `cb.before_train(self.trainer)` in the ambient context; any other
kind gets it inside `self.test_callback_context.before_train_context(...)`.
An exception from a callback aborts the rest of the loop. -/
def beforeTrainLoop : TestCallbackContext → Nat → List Callback → RunResult
  | ctx, fresh, [] => ⟨ctx, fresh, [], Except.ok ()⟩
  | ctx, fresh, cb :: rest =>
    if cb.kind.isTrain then
      match cb.beforeTrainErr with
      | some e => ⟨ctx, fresh, [Event.beforeTrainCall cb.name false],
          Except.error (Err.callbackErr e)⟩
      | none =>
        let r := beforeTrainLoop ctx fresh rest
        ⟨r.ctx, r.fresh, Event.beforeTrainCall cb.name false :: r.evs, r.res⟩
    else
      let bc := TestCallbackContext.before_train_context ctx fresh
      match bc.ctx.graph, bc.ctx.sess with
      | some _, some _ =>
        match cb.beforeTrainErr with
        | some e => ⟨bc.ctx, bc.fresh,
            bc.evs ++ [Event.beforeTrainCall cb.name true],
            Except.error (Err.callbackErr e)⟩
        | none =>
          let r := beforeTrainLoop bc.ctx bc.fresh rest
          ⟨r.ctx, r.fresh,
            bc.evs ++ Event.beforeTrainCall cb.name true :: r.evs, r.res⟩
      | _, _ => ⟨bc.ctx, bc.fresh, bc.evs,
          Except.error (Err.attributeError "graph")⟩

/-- The loop of `Callbacks._after_train`: `cb.after_train()` for every
callback in order, with no context switch (the `false` flag: the ambient
context is unchanged around every call). -/
def afterTrainLoop : List Callback → List Event × Except Err Unit
  | [] => ([], Except.ok ())
  | cb :: rest =>
    match cb.afterTrainErr with
    | some e => ([Event.afterTrainCall cb.name false],
        Except.error (Err.callbackErr e))
    | none =>
      let r := afterTrainLoop rest
      (Event.afterTrainCall cb.name false :: r.1, r.2)

/-- The loop of `Callbacks.trigger_step`: `cb.trigger_step()` only for
Train-kind callbacks; test callbacks do not have `trigger_step`. -/
def triggerStepLoop : List Callback → List Event × Except Err Unit
  | [] => ([], Except.ok ())
  | cb :: rest =>
    if cb.kind.isTrain then
      match cb.triggerStepErr with
      | some e => ([Event.triggerStepCall cb.name],
          Except.error (Err.callbackErr e))
      | none =>
        let r := triggerStepLoop rest
        (Event.triggerStepCall cb.name :: r.1, r.2)
    else triggerStepLoop rest

/-- Result of an epoch-trigger run: the timer, the event trace, the outcome. -/
structure EpochResult where
  tm : CallbackTimeLogger
  evs : List Event
  res : Except Err Unit
deriving DecidableEq

/-- The loop of `Callbacks._trigger_epoch`. Train-kind: `cb.trigger_epoch()`
inside `tm.timed_callback(type(cb).__name__)`. Other kinds: when
`test_sess_restored` is still false, first `restore_checkpoint()` inside
`tm.timed_callback('restore checkpoint')` and set the flag; then run
`cb.trigger_epoch()` inside `trigger_epoch_context()` (which makes the
stored graph and session ambient; an `AttributeError` if they were never
assigned) and the timed scope. `restoreTime` is the wall-clock duration of
a successful restore. Any exception aborts the rest of the loop. -/
def triggerEpochLoop (ctx : TestCallbackContext) (ckpt : Option String)
    (restoreTime : ℚ) :
    CallbackTimeLogger → Bool → List Callback → EpochResult
  | tm, _, [] => ⟨tm, [], Except.ok ()⟩
  | tm, restored, cb :: rest =>
    if cb.kind.isTrain then
      let tr := tm.timed_callback cb.name (cb.triggerEpochTime, errOf cb.triggerEpochErr)
      match tr.2 with
      | Except.error e => ⟨tr.1, [Event.triggerEpochCall cb.name false],
          Except.error e⟩
      | Except.ok _ =>
        let r := triggerEpochLoop ctx ckpt restoreTime tr.1 restored rest
        ⟨r.tm, Event.triggerEpochCall cb.name false :: r.evs, r.res⟩
    else
      if restored then
        match ctx.graph, ctx.sess with
        | some _, some _ =>
          let tr := tm.timed_callback cb.name (cb.triggerEpochTime, errOf cb.triggerEpochErr)
          match tr.2 with
          | Except.error e => ⟨tr.1, [Event.triggerEpochCall cb.name true],
              Except.error e⟩
          | Except.ok _ =>
            let r := triggerEpochLoop ctx ckpt restoreTime tr.1 true rest
            ⟨r.tm, Event.triggerEpochCall cb.name true :: r.evs, r.res⟩
        | _, _ => ⟨tm, [], Except.error (Err.attributeError "graph")⟩
      else
        let rc := TestCallbackContext.restore_checkpoint ctx ckpt
        let tr := tm.timed_callback "restore checkpoint" (restoreTime, rc.2)
        match tr.2 with
        | Except.error e => ⟨tr.1, rc.1, Except.error e⟩
        | Except.ok _ =>
          match ctx.graph, ctx.sess with
          | some _, some _ =>
            let tr2 := tr.1.timed_callback cb.name (cb.triggerEpochTime, errOf cb.triggerEpochErr)
            match tr2.2 with
            | Except.error e => ⟨tr2.1,
                rc.1 ++ [Event.triggerEpochCall cb.name true], Except.error e⟩
            | Except.ok _ =>
              let r := triggerEpochLoop ctx ckpt restoreTime tr2.1 true rest
              ⟨r.tm, rc.1 ++ Event.triggerEpochCall cb.name true :: r.evs, r.res⟩
          | _, _ => ⟨tr.1, rc.1, Except.error (Err.attributeError "graph")⟩

/-- The `Callbacks` container: the held list and its
`TestCallbackContext`, as assigned at the end of `__init__`. -/
structure Callbacks where
  cbs : List Callback
  test_callback_context : TestCallbackContext
deriving DecidableEq

/-- The validation loop of `Callbacks.__init__`: for each callback, if its
kind is neither `TrainCallbackType` nor `TestCallbackType`, raise
`ValueError("Unknown callback running graph <kind>!")`. Only `cb.type` is
read; no lifecycle method is touched. -/
def checkCallbackKinds : List Callback → Except Err Unit
  | [] => Except.ok ()
  | cb :: rest =>
    match cb.kind with
    | CbKind.other s => Except.error (Err.valueError
        ("Unknown callback running graph " ++ s ++ "!"))
    | _ => checkCallbackKinds rest

/-- `Callbacks.__init__(cbs)`: validate the kinds; on success store the
list and a fresh `TestCallbackContext`. -/
def Callbacks.init (cbs : List Callback) : Except Err Callbacks :=
  match checkCallbackKinds cbs with
  | Except.error e => Except.error e
  | Except.ok _ => Except.ok ⟨cbs, TestCallbackContext.init⟩

/-- `Callbacks._before_train`. -/
def Callbacks._before_train (g : Callbacks) (fresh : Nat) : RunResult :=
  beforeTrainLoop g.test_callback_context fresh g.cbs

/-- `Callbacks._after_train`. -/
def Callbacks._after_train (g : Callbacks) : List Event × Except Err Unit :=
  afterTrainLoop g.cbs

/-- `Callbacks.trigger_step`. -/
def Callbacks.trigger_step (g : Callbacks) : List Event × Except Err Unit :=
  triggerStepLoop g.cbs

/-- `Callbacks._trigger_epoch`: a fresh `CallbackTimeLogger` and a fresh
`test_sess_restored = False` for this call, the loop over the callbacks,
then `tm.log()` (only reached when no exception escaped the loop). -/
def Callbacks._trigger_epoch (g : Callbacks) (ckpt : Option String)
    (restoreTime : ℚ) : EpochResult :=
  let r := triggerEpochLoop g.test_callback_context ckpt restoreTime
    CallbackTimeLogger.init false g.cbs
  match r.res with
  | Except.ok _ =>
    ⟨r.tm, r.evs ++ (match r.tm.log with
      | none => []
      | some (tot, digest) => [Event.timerLog tot digest]), r.res⟩
  | Except.error _ => r

/-- One lifecycle phase as called by the external training driver. -/
inductive Phase where
  | beforeTrain : Phase
  | afterTrain : Phase
  | triggerStep : Phase
  | triggerEpoch : Option String → ℚ → Phase

/-- Run one phase of the driver against the group state, returning the
updated context, fresh-id supply and the emitted events (only
`_before_train` can modify the context). -/
def runPhase (cbs : List Callback) (ctx : TestCallbackContext) (fresh : Nat) :
    Phase → CtxStep
  | Phase.beforeTrain =>
    let r := beforeTrainLoop ctx fresh cbs
    ⟨r.ctx, r.fresh, r.evs⟩
  | Phase.afterTrain => ⟨ctx, fresh, (afterTrainLoop cbs).1⟩
  | Phase.triggerStep => ⟨ctx, fresh, (triggerStepLoop cbs).1⟩
  | Phase.triggerEpoch ckpt rt =>
    ⟨ctx, fresh, (triggerEpochLoop ctx ckpt rt CallbackTimeLogger.init false cbs).evs⟩

/-- Run a whole sequence of driver phases, accumulating the event trace. -/
def runPhases (cbs : List Callback) :
    TestCallbackContext → Nat → List Phase → CtxStep
  | ctx, fresh, [] => ⟨ctx, fresh, []⟩
  | ctx, fresh, p :: ps =>
    let s := runPhase cbs ctx fresh p
    let t := runPhases cbs s.ctx s.fresh ps
    ⟨t.ctx, t.fresh, s.evs ++ t.evs⟩

/-- Recognizer for the `restore_checkpoint` invocation event. -/
def isRestoreEv : Event → Bool
  | Event.restoreCheckpointCall => true
  | _ => false

/-- Recognizer for the test-session construction event. -/
def isCreateEv : Event → Bool
  | Event.createTestSession _ => true
  | _ => false

/-- Number of `restore_checkpoint` invocations in a trace. -/
def countRestore (evs : List Event) : Nat := evs.countP isRestoreEv

/-- Number of test-session constructions in a trace. -/
def countCreate (evs : List Event) : Nat := evs.countP isCreateEv

/-- Scanning the trace left to right: `true` when a `restore_checkpoint`
invocation occurs before any in-test-context `trigger_epoch` call (also
`true` when no such call occurs at all). -/
def restoreFirst : List Event → Bool
  | [] => true
  | e :: rest =>
    match e with
    | Event.restoreCheckpointCall => true
    | Event.triggerEpochCall _ true => false
    | _ => restoreFirst rest

/-- Whether a callback list contains a Test-kind callback. -/
def hasTestCb (cbs : List Callback) : Bool := cbs.any (fun cb => cb.kind.isTest)

/-- A kind the constructor accepts. -/
def kindOk (cb : Callback) : Bool := cb.kind.isTrain || cb.kind.isTest

/-- Apply a sequence of `add` operations (equivalently, of successfully
completed `timed_callback` scopes) to a timer. -/
def applyOps (ops : List (String × ℚ)) (tm : CallbackTimeLogger) :
    CallbackTimeLogger :=
  ops.foldl (fun t p => t.add p.1 p.2) tm

/-- Sum of the durations of a list of timer entries. -/
def sumDur (l : List (String × ℚ)) : ℚ := (l.map Prod.snd).sum

/-- A callback with every lifecycle behaviour erased; only `name` and
`kind` remain. -/
def eraseLifecycle (cb : Callback) : Callback :=
  { name := cb.name, kind := cb.kind }

/-- An ordinary Train-kind callback. -/
def cbA : Callback := { name := "A", kind := CbKind.train }

/-- An ordinary Test-kind callback. -/
def cbB : Callback := { name := "B", kind := CbKind.test }

/-- A second ordinary Train-kind callback. -/
def cbC : Callback := { name := "C", kind := CbKind.train }

/-- A callback whose kind is neither Train nor Test. -/
def cbX : Callback := { name := "X", kind := CbKind.other "FooType" }

/-- A trace containing no test-session construction event. -/
abbrev createFree (evs : List Event) : Prop := ∀ e ∈ evs, isCreateEv e = false

/-- Appending entries appends to the recorded list, in order. -/
theorem applyOps_times (l : List (String × ℚ)) :
    ∀ tm : CallbackTimeLogger, (applyOps l tm).times = tm.times ++ l := by
  induction l with
  | nil => intro tm; simp [applyOps]
  | cons p rest ih =>
    intro tm
    simp only [applyOps, List.foldl_cons] at ih ⊢
    rw [ih]
    simp [CallbackTimeLogger.add]

/-- Appending entries adds their durations to the running total. -/
theorem applyOps_tot (l : List (String × ℚ)) :
    ∀ tm : CallbackTimeLogger, (applyOps l tm).tot = tm.tot + sumDur l := by
  induction l with
  | nil => intro tm; simp [applyOps, sumDur]
  | cons p rest ih =>
    intro tm
    simp only [applyOps, List.foldl_cons] at ih ⊢
    rw [ih]
    simp [CallbackTimeLogger.add, sumDur]
    ring

/-- Claim C1, counterexample: running a timed scope whose wrapped operation
raises leaves the log and the running total unchanged — the pair
`("x", 2)` is not appended on this error exit path, while the error does
propagate, refuting the claim that the pair is recorded on every exit
path. -/
theorem timed_callback_error_cex :
    (CallbackTimeLogger.init.timed_callback "x"
      (2, Except.error (Err.callbackErr "boom"))).1.times = [] ∧
    ("x", (2 : ℚ)) ∉ (CallbackTimeLogger.init.timed_callback "x"
      (2, Except.error (Err.callbackErr "boom"))).1.times ∧
    (CallbackTimeLogger.init.timed_callback "x"
      (2, Except.error (Err.callbackErr "boom"))).1.tot = 0 ∧
    (CallbackTimeLogger.init.timed_callback "x"
      (2, Except.error (Err.callbackErr "boom"))).2 =
      Except.error (Err.callbackErr "boom") := by
  refine ⟨rfl, ?_, rfl, rfl⟩
  simp [CallbackTimeLogger.timed_callback, CallbackTimeLogger.init]

/-- Claim C1, amended: a timed scope opened via `timed_callback(name)`
records `(name, elapsed)` in the log and adds it to the running total
exactly on normal completion of the wrapped operation; when the wrapped
operation raises, the error propagates to the caller unmodified and
nothing is recorded (log and total unchanged), because the generator-based
scope has no cleanup clause after its `yield`. -/
theorem timed_callback_records_on_success_only :
    ∀ (tm : CallbackTimeLogger) (n : String) (d : ℚ),
      tm.timed_callback n (d, Except.ok ()) = (tm.add n d, Except.ok ()) ∧
      ∀ e : Err, tm.timed_callback n (d, Except.error e) = (tm, Except.error e) := by
  intro tm n d
  exact ⟨rfl, fun _ => rfl⟩

/-- Claim C10: after any sequence of `add` operations or successfully
completed `timed_callback` scopes (a successful timed scope is exactly an
`add` of its name and elapsed time), the running total equals the sum of
the recorded durations, and the log holds exactly the recorded pairs in
the order they were added. -/
theorem timer_total_eq_sum_of_times :
    (∀ (tm : CallbackTimeLogger) (n : String) (d : ℚ),
      tm.timed_callback n (d, Except.ok ()) = (tm.add n d, Except.ok ())) ∧
    ∀ ops : List (String × ℚ),
      (applyOps ops CallbackTimeLogger.init).tot = sumDur ops ∧
      (applyOps ops CallbackTimeLogger.init).times = ops := by
  refine ⟨fun tm n d => rfl, fun ops => ⟨?_, ?_⟩⟩
  · rw [applyOps_tot]; simp [CallbackTimeLogger.init]
  · rw [applyOps_times]; simp [CallbackTimeLogger.init]

/-- Claim C8: `log` emits nothing when the running total is below 3
seconds; otherwise it emits exactly one line carrying the total and the
digest of exactly those recorded entries with `t / tot > 0.3` and
`t > 1` (the line is emitted even when the digest is empty). In
particular durations a: 5/2, b: 2/5 (total 29/10) emit nothing, durations
a: 5, b: 1 (total 6) emit a line whose digest contains a but not b, and
durations a: 1, b: 1, c: 1 (total 3) emit a line with an empty digest. -/
theorem log_threshold_and_digest :
    (∀ l : List (String × ℚ),
      (applyOps l CallbackTimeLogger.init).log =
        if sumDur l < 3 then none
        else some (sumDur l,
          l.filter (fun p => decide ((3 : ℚ) / 10 < p.2 / sumDur l) &&
            decide ((1 : ℚ) < p.2)))) ∧
    (applyOps [("a", 5/2), ("b", 2/5)] CallbackTimeLogger.init).log = none ∧
    (applyOps [("a", 5), ("b", 1)] CallbackTimeLogger.init).log =
      some (6, [("a", 5)]) ∧
    (applyOps [("a", 1), ("b", 1), ("c", 1)] CallbackTimeLogger.init).log =
      some (3, []) := by
  have hgen : ∀ l : List (String × ℚ),
      (applyOps l CallbackTimeLogger.init).log =
        if sumDur l < 3 then none
        else some (sumDur l,
          l.filter (fun p => decide ((3 : ℚ) / 10 < p.2 / sumDur l) &&
            decide ((1 : ℚ) < p.2))) := by
    intro l
    simp [CallbackTimeLogger.log, applyOps_tot, applyOps_times, CallbackTimeLogger.init]
  refine ⟨hgen, ?_, ?_, ?_⟩
  · rw [hgen]
    norm_num [sumDur]
  · rw [hgen]
    norm_num [sumDur, List.filter_cons]
  · rw [hgen]
    norm_num [sumDur, List.filter_cons]

/-- Claim C6: on the sequence `[A(Train), B(Test), C(Train)]` with an
uninitialized secondary context, one `_before_train` call produces exactly:
`A.before_train` in the ambient context, construction of the test session,
`B.before_train` inside the secondary context, then `C.before_train` back
in the ambient context — construction order equals invocation order. -/
theorem before_train_order_concrete :
    Callbacks._before_train ⟨[cbA, cbB, cbC], TestCallbackContext.init⟩ 0 =
      ⟨⟨some 0, some 0, some 0⟩, 1,
        [Event.beforeTrainCall "A" false, Event.createTestSession 0,
         Event.beforeTrainCall "B" true, Event.beforeTrainCall "C" false],
        Except.ok ()⟩ := by
  rfl

/-- The `trigger_step` loop invokes exactly the Train-kind callbacks, in
order, when none of them raises. -/
theorem triggerStepLoop_eq (cbs : List Callback)
    (h : ∀ cb ∈ cbs, cb.kind.isTrain = true → cb.triggerStepErr = none) :
    triggerStepLoop cbs =
      ((cbs.filter (fun cb => cb.kind.isTrain)).map
        (fun cb => Event.triggerStepCall cb.name), Except.ok ()) := by
  induction cbs with
  | nil => rfl
  | cons cb rest ih =>
    have ih' := ih (fun c hc hh => h c (List.mem_cons_of_mem _ hc) hh)
    by_cases hk : cb.kind.isTrain = true
    · have he := h cb (List.mem_cons_self _ _) hk
      simp [triggerStepLoop, hk, he, List.filter_cons, ih']
    · simp [triggerStepLoop, hk, List.filter_cons, ih']

/-- Claim C7: for every callback sequence (whose Train-kind callbacks do
not raise in `trigger_step`), the group's per-step trigger invokes
`trigger_step` on exactly the Train-kind callbacks in construction order —
the whole event trace consists of those calls, so nothing at all is
invoked on Test-kind callbacks. -/
theorem trigger_step_only_train (g : Callbacks)
    (h : ∀ cb ∈ g.cbs, cb.kind.isTrain = true → cb.triggerStepErr = none) :
    Callbacks.trigger_step g =
      ((g.cbs.filter (fun cb => cb.kind.isTrain)).map
        (fun cb => Event.triggerStepCall cb.name), Except.ok ()) :=
  triggerStepLoop_eq g.cbs h

/-- Witness for claim C7 at the sequence `[A(Train), B(Test)]`. -/
theorem trigger_step_only_train_witness :
    (∀ cb ∈ [cbA, cbB], cb.kind.isTrain = true → cb.triggerStepErr = none) ∧
    Callbacks.trigger_step ⟨[cbA, cbB], TestCallbackContext.init⟩ =
      (([cbA, cbB].filter (fun cb => cb.kind.isTrain)).map
        (fun cb => Event.triggerStepCall cb.name), Except.ok ()) :=
  ⟨by decide, trigger_step_only_train ⟨[cbA, cbB], TestCallbackContext.init⟩ (by decide)⟩

/-- The `_after_train` loop calls every callback in order, in the ambient
context, when none of them raises. -/
theorem afterTrainLoop_eq (cbs : List Callback)
    (h : ∀ cb ∈ cbs, cb.afterTrainErr = none) :
    afterTrainLoop cbs =
      (cbs.map (fun cb => Event.afterTrainCall cb.name false), Except.ok ()) := by
  induction cbs with
  | nil => rfl
  | cons cb rest ih =>
    have he := h cb (List.mem_cons_self _ _)
    have ih' := ih (fun c hc => h c (List.mem_cons_of_mem _ hc))
    simp [afterTrainLoop, he, ih']

/-- Claim C9: a call to `_after_train` invokes `after_train()` on each
callback in construction order, Train-kind and Test-kind alike (assuming
none raises), and every one of those calls happens in the unchanged
ambient context (the `false` flag): no secondary-context switch occurs,
preserving the deliberate asymmetry with `before_train` and
`trigger_epoch`. -/
theorem after_train_in_order_no_ctx (g : Callbacks)
    (h : ∀ cb ∈ g.cbs, cb.afterTrainErr = none) :
    Callbacks._after_train g =
      (g.cbs.map (fun cb => Event.afterTrainCall cb.name false), Except.ok ()) :=
  afterTrainLoop_eq g.cbs h

/-- Witness for claim C9 at the sequence `[A(Train), B(Test), C(Train)]`. -/
theorem after_train_in_order_no_ctx_witness :
    (∀ cb ∈ [cbA, cbB, cbC], cb.afterTrainErr = none) ∧
    Callbacks._after_train ⟨[cbA, cbB, cbC], TestCallbackContext.init⟩ =
      ([cbA, cbB, cbC].map (fun cb => Event.afterTrainCall cb.name false),
        Except.ok ()) :=
  ⟨by decide,
    after_train_in_order_no_ctx ⟨[cbA, cbB, cbC], TestCallbackContext.init⟩ (by decide)⟩

/-- Erasing lifecycle behaviour does not change kind validation. -/
theorem checkCallbackKinds_erase (l : List Callback) :
    checkCallbackKinds (l.map eraseLifecycle) = checkCallbackKinds l := by
  induction l with
  | nil => rfl
  | cons cb rest ih =>
    cases h : cb.kind with
    | train => simp [checkCallbackKinds, eraseLifecycle, h, ih]
    | test => simp [checkCallbackKinds, eraseLifecycle, h, ih]
    | other s => simp [checkCallbackKinds, eraseLifecycle, h]

/-- Kind validation fails at the first callback of unrecognized kind. -/
theorem checkCallbackKinds_first_bad (cb : Callback) (post : List Callback)
    (s : String) (hcb : cb.kind = CbKind.other s) :
    ∀ pre : List Callback, (∀ c ∈ pre, kindOk c = true) →
      checkCallbackKinds (pre ++ cb :: post) =
        Except.error (Err.valueError
          ("Unknown callback running graph " ++ s ++ "!")) := by
  intro pre
  induction pre with
  | nil => intro _; simp [checkCallbackKinds, hcb]
  | cons c rest ih =>
    intro hpre
    have hc := hpre c (List.mem_cons_self _ _)
    have ih' := ih (fun d hd => hpre d (List.mem_cons_of_mem _ hd))
    cases h : c.kind with
    | train => simp [checkCallbackKinds, h, ih']
    | test => simp [checkCallbackKinds, h, ih']
    | other t => simp [kindOk, h, CbKind.isTrain, CbKind.isTest] at hc

/-- Claim C5: constructing a `Callbacks` group from a sequence whose first
unrecognized-kind callback has kind string `s` fails immediately with the
`ValueError` naming `s`; and the failure is computed from the kinds alone —
erasing every lifecycle behaviour of every callback yields the very same
result, so no lifecycle method is consulted by the failed construction. -/
theorem init_rejects_unknown_kind (pre post : List Callback) (cb : Callback)
    (s : String) (hpre : ∀ c ∈ pre, kindOk c = true)
    (hcb : cb.kind = CbKind.other s) :
    Callbacks.init (pre ++ cb :: post) =
      Except.error (Err.valueError
        ("Unknown callback running graph " ++ s ++ "!")) ∧
    Callbacks.init (pre ++ cb :: post) =
      Callbacks.init ((pre ++ cb :: post).map eraseLifecycle) := by
  have h1 := checkCallbackKinds_first_bad cb post s hcb pre hpre
  constructor
  · unfold Callbacks.init
    rw [h1]
  · unfold Callbacks.init
    rw [checkCallbackKinds_erase, h1]

/-- Witness for claim C5 at the sequence `[A(Train), X(FooType), B(Test)]`. -/
theorem init_rejects_unknown_kind_witness :
    (∀ c ∈ [cbA], kindOk c = true) ∧ cbX.kind = CbKind.other "FooType" ∧
    Callbacks.init ([cbA] ++ cbX :: [cbB]) =
      Except.error (Err.valueError
        ("Unknown callback running graph " ++ "FooType" ++ "!")) ∧
    Callbacks.init ([cbA] ++ cbX :: [cbB]) =
      Callbacks.init (([cbA] ++ cbX :: [cbB]).map eraseLifecycle) :=
  ⟨by decide, by decide,
    init_rejects_unknown_kind [cbA] [cbB] cbX "FooType" (by decide) (by decide)⟩

/-- With no checkpoint available, the epoch loop runs the leading Train-kind
callbacks, then the restore attempt at the first Test-kind callback raises
the missing-checkpoint `RuntimeError`, aborting the loop. -/
theorem epochLoop_missing_ckpt (ctx : TestCallbackContext) (rt : ℚ)
    (cb : Callback) (rest : List Callback) (hcb : cb.kind = CbKind.test) :
    ∀ (pre : List Callback) (tm : CallbackTimeLogger),
      (∀ c ∈ pre, c.kind.isTrain = true ∧ c.triggerEpochErr = none) →
      (triggerEpochLoop ctx none rt tm false (pre ++ cb :: rest)).evs =
        pre.map (fun c => Event.triggerEpochCall c.name false) ++
          [Event.restoreCheckpointCall] ∧
      (triggerEpochLoop ctx none rt tm false (pre ++ cb :: rest)).res =
        Except.error (Err.runtimeError missingCkptMsg) := by
  intro pre
  induction pre with
  | nil =>
    intro tm _
    have hk : cb.kind.isTrain = false := by rw [hcb]; rfl
    simp [triggerEpochLoop, hk, TestCallbackContext.restore_checkpoint,
      CallbackTimeLogger.timed_callback]
  | cons c rest' ih =>
    intro tm hpre
    have h1 := (hpre c (List.mem_cons_self _ _)).1
    have h2 := (hpre c (List.mem_cons_self _ _)).2
    have ih' := ih (tm.add c.name c.triggerEpochTime)
      (fun d hd => hpre d (List.mem_cons_of_mem _ hd))
    simp [triggerEpochLoop, h1, h2, errOf, CallbackTimeLogger.timed_callback,
      ih'.1, ih'.2]

/-- Claim C4: calling the epoch trigger on a sequence whose first non-Train
callback is Test-kind, when the checkpoint lookup returns none (no
checkpoint was ever produced) and the leading Train-kind callbacks do not
themselves raise, fails with the missing-checkpoint `RuntimeError` carrying
the actionable message; the error surfaces as the call's outcome, and the
trace shows only the leading Train-kind epoch calls followed by the failed
restore attempt — no `trigger_epoch` ever runs inside the test context. -/
theorem epoch_missing_ckpt_aborts (ctx : TestCallbackContext) (rt : ℚ)
    (pre rest : List Callback) (cb : Callback)
    (hpre : ∀ c ∈ pre, c.kind.isTrain = true ∧ c.triggerEpochErr = none)
    (hcb : cb.kind = CbKind.test) :
    (Callbacks._trigger_epoch ⟨pre ++ cb :: rest, ctx⟩ none rt).res =
      Except.error (Err.runtimeError missingCkptMsg) ∧
    (Callbacks._trigger_epoch ⟨pre ++ cb :: rest, ctx⟩ none rt).evs =
      pre.map (fun c => Event.triggerEpochCall c.name false) ++
        [Event.restoreCheckpointCall] ∧
    ∀ n : String, Event.triggerEpochCall n true ∉
      (Callbacks._trigger_epoch ⟨pre ++ cb :: rest, ctx⟩ none rt).evs := by
  have h := epochLoop_missing_ckpt ctx rt cb rest hcb pre CallbackTimeLogger.init hpre
  have hres : (Callbacks._trigger_epoch ⟨pre ++ cb :: rest, ctx⟩ none rt).res =
      Except.error (Err.runtimeError missingCkptMsg) := by
    simp [Callbacks._trigger_epoch, h.2]
  have hevs : (Callbacks._trigger_epoch ⟨pre ++ cb :: rest, ctx⟩ none rt).evs =
      pre.map (fun c => Event.triggerEpochCall c.name false) ++
        [Event.restoreCheckpointCall] := by
    simp [Callbacks._trigger_epoch, h.2, h.1]
  refine ⟨hres, hevs, ?_⟩
  intro n hmem
  rw [hevs] at hmem
  rcases List.mem_append.1 hmem with hm | hm
  · rcases List.mem_map.1 hm with ⟨c, _, hc⟩
    exact Bool.noConfusion (congrArg (fun e => match e with
      | Event.triggerEpochCall _ b => b
      | _ => true) hc)
  · simp at hm

/-- Witness for claim C4 at the sequence `[A(Train), B(Test)]` with no
checkpoint. -/
theorem epoch_missing_ckpt_aborts_witness :
    (∀ c ∈ [cbA], c.kind.isTrain = true ∧ c.triggerEpochErr = none) ∧
    cbB.kind = CbKind.test ∧
    (Callbacks._trigger_epoch ⟨[cbA] ++ cbB :: [], TestCallbackContext.init⟩
      none 0).res = Except.error (Err.runtimeError missingCkptMsg) ∧
    (Callbacks._trigger_epoch ⟨[cbA] ++ cbB :: [], TestCallbackContext.init⟩
      none 0).evs =
      [cbA].map (fun c => Event.triggerEpochCall c.name false) ++
        [Event.restoreCheckpointCall] :=
  ⟨by decide, by decide,
    (epoch_missing_ckpt_aborts TestCallbackContext.init 0 [cbA] [] cbB
      (by decide) (by decide)).1,
    (epoch_missing_ckpt_aborts TestCallbackContext.init 0 [cbA] [] cbB
      (by decide) (by decide)).2.1⟩

/-- Once `test_sess_restored` is set, the rest of the epoch loop never
invokes `restore_checkpoint` again. -/
theorem epochLoop_restored_no_restore (ctx : TestCallbackContext)
    (ckpt : Option String) (rt : ℚ) :
    ∀ (cbs : List Callback) (tm : CallbackTimeLogger),
      countRestore (triggerEpochLoop ctx ckpt rt tm true cbs).evs = 0 := by
  intro cbs
  induction cbs with
  | nil => intro tm; simp [triggerEpochLoop, countRestore]
  | cons cb rest ih =>
    intro tm
    cases hk : cb.kind.isTrain with
    | true =>
      cases he : cb.triggerEpochErr with
      | some e =>
        simp [triggerEpochLoop, hk, he, errOf, CallbackTimeLogger.timed_callback,
          countRestore, isRestoreEv]
      | none =>
        simp [triggerEpochLoop, hk, he, errOf, CallbackTimeLogger.timed_callback,
          countRestore, List.countP_cons, isRestoreEv, ih]
        intro a ha
        exact Bool.eq_false_iff.mpr (List.countP_eq_zero.mp (ih (tm.add cb.name cb.triggerEpochTime)) a ha)
    | false =>
      cases hg : ctx.graph with
      | none => simp [triggerEpochLoop, hk, hg, countRestore]
      | some g =>
        cases hs : ctx.sess with
        | none => simp [triggerEpochLoop, hk, hg, hs, countRestore]
        | some s =>
          cases he : cb.triggerEpochErr with
          | some e =>
            simp [triggerEpochLoop, hk, hg, hs, he, errOf,
              CallbackTimeLogger.timed_callback, countRestore, isRestoreEv]
          | none =>
            simp [triggerEpochLoop, hk, hg, hs, he, errOf,
              CallbackTimeLogger.timed_callback, countRestore,
              List.countP_cons, isRestoreEv, ih]
            intro a ha
            exact Bool.eq_false_iff.mpr (List.countP_eq_zero.mp (ih (tm.add cb.name cb.triggerEpochTime)) a ha)

/-- In an epoch loop started with `test_sess_restored = False` in which no
callback raises and every kind is recognized, `restore_checkpoint` is
invoked exactly once when a Test-kind callback is present (zero times
otherwise), and the invocation precedes every epoch call made inside the
test context. -/
theorem epochLoop_unrestored_count (ctx : TestCallbackContext)
    (ckpt : Option String) (rt : ℚ) :
    ∀ (cbs : List Callback) (tm : CallbackTimeLogger),
      (∀ cb ∈ cbs, cb.triggerEpochErr = none) →
      (∀ cb ∈ cbs, kindOk cb = true) →
      countRestore (triggerEpochLoop ctx ckpt rt tm false cbs).evs =
        (if hasTestCb cbs then 1 else 0) ∧
      restoreFirst (triggerEpochLoop ctx ckpt rt tm false cbs).evs = true := by
  intro cbs
  induction cbs with
  | nil => intro tm _ _; simp [triggerEpochLoop, countRestore, hasTestCb, restoreFirst]
  | cons cb rest ih =>
    intro tm h1 h2
    have he := h1 cb (List.mem_cons_self _ _)
    have hko := h2 cb (List.mem_cons_self _ _)
    have h1' := fun d hd => h1 d (List.mem_cons_of_mem cb hd)
    have h2' := fun d hd => h2 d (List.mem_cons_of_mem cb hd)
    cases hk : cb.kind.isTrain with
    | true =>
      have ihs := ih (tm.add cb.name cb.triggerEpochTime) h1' h2'
      have htest : cb.kind.isTest = false := by
        cases hkind : cb.kind
        · rfl
        · rw [hkind] at hk; exact Bool.noConfusion hk
        · rfl
      simp [triggerEpochLoop, hk, he, errOf, CallbackTimeLogger.timed_callback,
        countRestore, List.countP_cons, isRestoreEv, hasTestCb, List.any_cons,
        htest, restoreFirst, ihs.1, ihs.2] at ihs ⊢
      exact ihs
    | false =>
      have htest : cb.kind.isTest = true := by
        simpa [kindOk, hk] using hko
      cases hck : ckpt with
      | none =>
        simp [triggerEpochLoop, hk, TestCallbackContext.restore_checkpoint,
          CallbackTimeLogger.timed_callback, countRestore, isRestoreEv,
          restoreFirst, hasTestCb, List.any_cons, htest]
      | some path =>
        cases hsav : ctx.saver with
        | none =>
          simp [triggerEpochLoop, hk, hsav, TestCallbackContext.restore_checkpoint,
            CallbackTimeLogger.timed_callback, countRestore, isRestoreEv,
            restoreFirst, hasTestCb, List.any_cons, htest]
        | some sv =>
          cases hg : ctx.graph with
          | none =>
            simp [triggerEpochLoop, hk, hsav, hg,
              TestCallbackContext.restore_checkpoint,
              CallbackTimeLogger.timed_callback, countRestore, isRestoreEv,
              restoreFirst, hasTestCb, List.any_cons, htest]
          | some g =>
            cases hs : ctx.sess with
            | none =>
              simp [triggerEpochLoop, hk, hsav, hg, hs,
                TestCallbackContext.restore_checkpoint,
                CallbackTimeLogger.timed_callback, countRestore, isRestoreEv,
                restoreFirst, hasTestCb, List.any_cons, htest]
            | some s =>
              have hz := epochLoop_restored_no_restore ctx (some path) rt rest
                (((tm.add "restore checkpoint" rt)).add cb.name cb.triggerEpochTime)
              simp [triggerEpochLoop, hk, hsav, hg, hs, he, errOf,
                TestCallbackContext.restore_checkpoint,
                CallbackTimeLogger.timed_callback, countRestore, isRestoreEv,
                List.countP_cons, List.countP_append, restoreFirst, hasTestCb,
                List.any_cons, htest, hz] at hz ⊢
              exact hz

/-- A trace with no in-test-context epoch call trivially has its restore
(if any) before the first such call. -/
theorem restoreFirst_of_no_test :
    ∀ l : List Event, (∀ n : String, Event.triggerEpochCall n true ∉ l) →
      restoreFirst l = true := by
  intro l
  induction l with
  | nil => intro _; rfl
  | cons e rest ih =>
    intro h
    cases e with
    | restoreCheckpointCall => rfl
    | triggerEpochCall n b =>
      cases b with
      | false => exact ih (fun m hm => h m (List.mem_cons_of_mem _ hm))
      | true => exact absurd (List.mem_cons_self _ _) (h n)
    | beforeTrainCall n b => exact ih (fun m hm => h m (List.mem_cons_of_mem _ hm))
    | afterTrainCall n b => exact ih (fun m hm => h m (List.mem_cons_of_mem _ hm))
    | triggerStepCall n => exact ih (fun m hm => h m (List.mem_cons_of_mem _ hm))
    | createTestSession i => exact ih (fun m hm => h m (List.mem_cons_of_mem _ hm))
    | infoLog m => exact ih (fun mm hm => h mm (List.mem_cons_of_mem _ hm))
    | timerLog q d => exact ih (fun m hm => h m (List.mem_cons_of_mem _ hm))

/-- Appending events containing no in-test-context epoch call preserves the
restore-before-first-test-call property. -/
theorem restoreFirst_append :
    ∀ l t : List Event, restoreFirst l = true →
      (∀ n : String, Event.triggerEpochCall n true ∉ t) →
      restoreFirst (l ++ t) = true := by
  intro l
  induction l with
  | nil => intro t _ ht; exact restoreFirst_of_no_test t ht
  | cons e rest ih =>
    intro t h ht
    cases e with
    | restoreCheckpointCall => rfl
    | triggerEpochCall n b =>
      cases b with
      | false => exact ih t h ht
      | true => exact Bool.noConfusion h
    | beforeTrainCall n b => exact ih t h ht
    | afterTrainCall n b => exact ih t h ht
    | triggerStepCall n => exact ih t h ht
    | createTestSession i => exact ih t h ht
    | infoLog m => exact ih t h ht
    | timerLog q d => exact ih t h ht

/-- `_trigger_epoch`'s trace is the loop trace plus possibly one final
timer-digest line, which is neither a restore nor an epoch call. -/
theorem trigger_epoch_evs_split (g : Callbacks) (ckpt : Option String) (rt : ℚ) :
    ∃ tail : List Event,
      (Callbacks._trigger_epoch g ckpt rt).evs =
        (triggerEpochLoop g.test_callback_context ckpt rt
          CallbackTimeLogger.init false g.cbs).evs ++ tail ∧
      countRestore tail = 0 ∧
      ∀ n : String, Event.triggerEpochCall n true ∉ tail := by
  cases hres : (triggerEpochLoop g.test_callback_context ckpt rt
      CallbackTimeLogger.init false g.cbs).res with
  | error e =>
    refine ⟨[], ?_, rfl, by simp⟩
    simp [Callbacks._trigger_epoch, hres]
  | ok u =>
    cases hlog : (triggerEpochLoop g.test_callback_context ckpt rt
        CallbackTimeLogger.init false g.cbs).tm.log with
    | none =>
      refine ⟨[], ?_, rfl, by simp⟩
      simp [Callbacks._trigger_epoch, hres, hlog]
    | some pr =>
      cases pr with
      | mk tot digest =>
        refine ⟨[Event.timerLog tot digest], ?_, by simp [countRestore, isRestoreEv], by simp⟩
        simp [Callbacks._trigger_epoch, hres, hlog]

/-- Claim C2: in every epoch-trigger call on a group whose callbacks all
have recognized kinds and raise no error, `restore_checkpoint` is invoked
exactly once when at least one Test-kind callback is present and zero
times when none is, and the invocation happens before the first Test-kind
callback's `trigger_epoch` runs. The once-per-call flag
`test_sess_restored` is local to `_trigger_epoch`, so the bookkeeping is
reset on every call by construction. -/
theorem epoch_restore_once (g : Callbacks) (ckpt : Option String) (rt : ℚ)
    (h1 : ∀ cb ∈ g.cbs, cb.triggerEpochErr = none)
    (h2 : ∀ cb ∈ g.cbs, kindOk cb = true) :
    countRestore (Callbacks._trigger_epoch g ckpt rt).evs =
      (if hasTestCb g.cbs then 1 else 0) ∧
    restoreFirst (Callbacks._trigger_epoch g ckpt rt).evs = true := by
  obtain ⟨tail, hevs, ht0, htm⟩ := trigger_epoch_evs_split g ckpt rt
  have hloop := epochLoop_unrestored_count g.test_callback_context ckpt rt
    g.cbs CallbackTimeLogger.init h1 h2
  constructor
  · rw [hevs]
    have hc1 : countRestore ((triggerEpochLoop g.test_callback_context ckpt rt
        CallbackTimeLogger.init false g.cbs).evs ++ tail) =
        countRestore (triggerEpochLoop g.test_callback_context ckpt rt
          CallbackTimeLogger.init false g.cbs).evs + countRestore tail := by
      simp [countRestore, List.countP_append]
    rw [hc1, ht0, hloop.1]
    exact Nat.add_zero _
  · rw [hevs]
    exact restoreFirst_append _ tail hloop.2 htm

/-- Witness for claim C2 at the sequence `[A(Train), B(Test)]` with a
checkpoint present. -/
theorem epoch_restore_once_witness :
    (∀ cb ∈ [cbA, cbB], cb.triggerEpochErr = none) ∧
    (∀ cb ∈ [cbA, cbB], kindOk cb = true) ∧
    (countRestore (Callbacks._trigger_epoch
        ⟨[cbA, cbB], TestCallbackContext.init⟩ (some "model-1000") 0).evs =
      (if hasTestCb [cbA, cbB] then 1 else 0) ∧
    restoreFirst (Callbacks._trigger_epoch
        ⟨[cbA, cbB], TestCallbackContext.init⟩ (some "model-1000") 0).evs = true) :=
  ⟨by decide, by decide,
    epoch_restore_once ⟨[cbA, cbB], TestCallbackContext.init⟩ (some "model-1000") 0
      (by decide) (by decide)⟩

/-- Counting form of `createFree`. -/
theorem countCreate_eq_zero {evs : List Event} (h : createFree evs) :
    countCreate evs = 0 :=
  List.countP_eq_zero.mpr (fun a ha => by rw [h a ha]; simp)

/-- `restore_checkpoint` never constructs a test session. -/
theorem createFree_restore (ctx : TestCallbackContext) (ckpt : Option String) :
    createFree (TestCallbackContext.restore_checkpoint ctx ckpt).1 := by
  cases ckpt with
  | none => simp [TestCallbackContext.restore_checkpoint, isCreateEv, createFree]
  | some path =>
    cases hsav : ctx.saver with
    | none => simp [TestCallbackContext.restore_checkpoint, hsav, isCreateEv, createFree]
    | some sv => simp [TestCallbackContext.restore_checkpoint, hsav, isCreateEv, createFree]

/-- The per-step loop never constructs a test session. -/
theorem createFree_triggerStep :
    ∀ cbs : List Callback, createFree (triggerStepLoop cbs).1 := by
  intro cbs
  induction cbs with
  | nil => simp [triggerStepLoop, createFree]
  | cons cb rest ih =>
    cases hk : cb.kind.isTrain with
    | true =>
      cases he : cb.triggerStepErr with
      | some e => simp [triggerStepLoop, hk, he, isCreateEv, createFree]
      | none =>
        simp only [triggerStepLoop, hk, he, if_true]
        intro e hee
        rcases List.mem_cons.mp hee with h | h
        · subst h; rfl
        · exact ih e h
    | false =>
      simp only [triggerStepLoop, hk]
      simpa using ih

/-- The after-train loop never constructs a test session. -/
theorem createFree_afterTrain :
    ∀ cbs : List Callback, createFree (afterTrainLoop cbs).1 := by
  intro cbs
  induction cbs with
  | nil => simp [afterTrainLoop, createFree]
  | cons cb rest ih =>
    cases he : cb.afterTrainErr with
    | some e => simp [afterTrainLoop, he, isCreateEv, createFree]
    | none =>
      simp only [afterTrainLoop, he]
      intro e hee
      rcases List.mem_cons.mp hee with h | h
      · subst h; rfl
      · exact ih e h

/-- The epoch-trigger loop never constructs a test session. -/
theorem createFree_epochLoop (ctx : TestCallbackContext) (ckpt : Option String)
    (rt : ℚ) :
    ∀ (cbs : List Callback) (tm : CallbackTimeLogger) (restored : Bool),
      createFree (triggerEpochLoop ctx ckpt rt tm restored cbs).evs := by
  intro cbs
  induction cbs with
  | nil => intro tm restored; simp [triggerEpochLoop, createFree]
  | cons cb rest ih =>
    intro tm restored
    cases hk : cb.kind.isTrain with
    | true =>
      cases he : cb.triggerEpochErr with
      | some e =>
        simp [triggerEpochLoop, hk, he, errOf, CallbackTimeLogger.timed_callback,
          isCreateEv, createFree]
      | none =>
        simp only [triggerEpochLoop, hk, he, errOf,
          CallbackTimeLogger.timed_callback, if_true]
        intro e hee
        rcases List.mem_cons.mp hee with h | h
        · subst h; rfl
        · exact ih _ restored e h
    | false =>
      cases restored with
      | true =>
        cases hg : ctx.graph with
        | none => simp [triggerEpochLoop, hk, hg, createFree]
        | some g =>
          cases hs : ctx.sess with
          | none => simp [triggerEpochLoop, hk, hg, hs, createFree]
          | some s =>
            cases he : cb.triggerEpochErr with
            | some e =>
              simp [triggerEpochLoop, hk, hg, hs, he, errOf,
                CallbackTimeLogger.timed_callback, isCreateEv, createFree]
            | none =>
              simp only [triggerEpochLoop, hk, hg, hs, he, errOf,
                CallbackTimeLogger.timed_callback]
              intro e hee
              rcases List.mem_cons.mp hee with h | h
              · subst h; rfl
              · exact ih _ true e h
      | false =>
        cases hck : ckpt with
        | none =>
          simp [triggerEpochLoop, hk, TestCallbackContext.restore_checkpoint,
            CallbackTimeLogger.timed_callback, isCreateEv, createFree]
        | some path =>
          cases hsav : ctx.saver with
          | none =>
            simp [triggerEpochLoop, hk, hsav,
              TestCallbackContext.restore_checkpoint,
              CallbackTimeLogger.timed_callback, isCreateEv, createFree]
          | some sv =>
            cases hg : ctx.graph with
            | none =>
              simp [triggerEpochLoop, hk, hsav, hg,
                TestCallbackContext.restore_checkpoint,
                CallbackTimeLogger.timed_callback, isCreateEv, createFree]
            | some g =>
              cases hs : ctx.sess with
              | none =>
                simp [triggerEpochLoop, hk, hsav, hg, hs,
                  TestCallbackContext.restore_checkpoint,
                  CallbackTimeLogger.timed_callback, isCreateEv, createFree]
              | some s =>
                cases he : cb.triggerEpochErr with
                | some e =>
                  simp [triggerEpochLoop, hk, hsav, hg, hs, he, errOf,
                    TestCallbackContext.restore_checkpoint,
                    CallbackTimeLogger.timed_callback, isCreateEv, createFree]
                | none =>
                  rw [hck] at ih
                  simp only [triggerEpochLoop, hk, hsav, hg, hs, he, errOf,
                    TestCallbackContext.restore_checkpoint,
                    CallbackTimeLogger.timed_callback]
                  intro e hee
                  simp [List.mem_append, List.mem_cons] at hee
                  rcases hee with h | h | h | h
                  · rw [h]; rfl
                  · rw [h]; rfl
                  · rw [h]; rfl
                  · exact ih _ true e h

/-- Once the context holds a session, `_before_train` leaves the context
(and the fresh-id supply) unchanged and constructs nothing. -/
theorem beforeTrainLoop_initialized (s : Nat) :
    ∀ (cbs : List Callback) (ctx : TestCallbackContext) (fresh : Nat),
      ctx.sess = some s →
      (beforeTrainLoop ctx fresh cbs).ctx = ctx ∧
      (beforeTrainLoop ctx fresh cbs).fresh = fresh ∧
      createFree (beforeTrainLoop ctx fresh cbs).evs := by
  intro cbs
  induction cbs with
  | nil => intro ctx fresh hs; simp [beforeTrainLoop, createFree]
  | cons cb rest ih =>
    intro ctx fresh hs
    cases hk : cb.kind.isTrain with
    | true =>
      cases he : cb.beforeTrainErr with
      | some e => simp [beforeTrainLoop, hk, he, isCreateEv, createFree]
      | none =>
        have ihs := ih ctx fresh hs
        simp only [beforeTrainLoop, hk, he, if_true]
        refine ⟨ihs.1, ihs.2.1, ?_⟩
        intro e hee
        rcases List.mem_cons.mp hee with h | h
        · rw [h]; rfl
        · exact ihs.2.2 e h
    | false =>
      have hbc : TestCallbackContext.before_train_context ctx fresh =
          ⟨ctx, fresh, []⟩ := by
        simp [TestCallbackContext.before_train_context, hs]
      cases hg : ctx.graph with
      | none =>
        simp [beforeTrainLoop, hk, hbc, hg, hs, createFree]
      | some g =>
        cases he : cb.beforeTrainErr with
        | some e => simp [beforeTrainLoop, hk, hbc, hg, hs, he, isCreateEv, createFree]
        | none =>
          have ihs := ih ctx fresh hs
          simp only [beforeTrainLoop, hk, hbc, hg, hs, he, Bool.false_eq_true,
            if_false, List.nil_append]
          refine ⟨ihs.1, ihs.2.1, ?_⟩
          intro e hee
          rcases List.mem_cons.mp hee with h | h
          · rw [h]; rfl
          · exact ihs.2.2 e h

/-- From an uninitialized context, one `_before_train` run either leaves
everything unchanged with no construction (an early abort before any
Test-kind callback), or constructs the test session exactly once and ends
with a session stored. -/
theorem beforeTrainLoop_uninitialized :
    ∀ (cbs : List Callback) (ctx : TestCallbackContext) (fresh : Nat),
      ctx.sess = none →
      ((beforeTrainLoop ctx fresh cbs).ctx = ctx ∧
       (beforeTrainLoop ctx fresh cbs).fresh = fresh ∧
       countCreate (beforeTrainLoop ctx fresh cbs).evs = 0) ∨
      ((∃ s, (beforeTrainLoop ctx fresh cbs).ctx.sess = some s) ∧
       countCreate (beforeTrainLoop ctx fresh cbs).evs = 1) := by
  intro cbs
  induction cbs with
  | nil =>
    intro ctx fresh hs
    left
    simp [beforeTrainLoop, countCreate]
  | cons cb rest ih =>
    intro ctx fresh hs
    cases hk : cb.kind.isTrain with
    | true =>
      cases he : cb.beforeTrainErr with
      | some e =>
        left
        simp [beforeTrainLoop, hk, he, countCreate, isCreateEv]
      | none =>
        rcases ih ctx fresh hs with ⟨l1, l2, l3⟩ | ⟨⟨s, hsess⟩, hcount⟩
        · left
          simp only [beforeTrainLoop, hk, he, if_true]
          refine ⟨l1, l2, ?_⟩
          simpa [countCreate, List.countP_cons, isCreateEv] using l3
        · right
          simp only [beforeTrainLoop, hk, he, if_true]
          refine ⟨⟨s, hsess⟩, ?_⟩
          simpa [countCreate, List.countP_cons, isCreateEv] using hcount
    | false =>
      have hbc : TestCallbackContext.before_train_context ctx fresh =
          ⟨⟨some fresh, some fresh, some fresh⟩, fresh + 1,
            [Event.createTestSession fresh]⟩ := by
        simp [TestCallbackContext.before_train_context, hs]
      cases he : cb.beforeTrainErr with
      | some e =>
        right
        simp [beforeTrainLoop, hk, hbc, he, countCreate, isCreateEv]
      | none =>
        right
        have hb1 := beforeTrainLoop_initialized fresh rest
          ⟨some fresh, some fresh, some fresh⟩ (fresh + 1) rfl
        have hz : countCreate (beforeTrainLoop
            ⟨some fresh, some fresh, some fresh⟩ (fresh + 1) rest).evs = 0 :=
          countCreate_eq_zero hb1.2.2
        simp only [beforeTrainLoop, hk, hbc, he, Bool.false_eq_true, if_false]
        constructor
        · refine ⟨fresh, ?_⟩
          rw [hb1.1]
        · simpa [countCreate, List.countP_cons, List.countP_append, isCreateEv]
            using hz

/-- Once the context holds a session, any further sequence of driver
phases leaves the context unchanged and never constructs a test session. -/
theorem runPhases_initialized (s : Nat) (cbs : List Callback) :
    ∀ (phases : List Phase) (ctx : TestCallbackContext) (fresh : Nat),
      ctx.sess = some s →
      (runPhases cbs ctx fresh phases).ctx = ctx ∧
      countCreate (runPhases cbs ctx fresh phases).evs = 0 := by
  intro phases
  induction phases with
  | nil => intro ctx fresh hs; simp [runPhases, countCreate]
  | cons p ps ih =>
    intro ctx fresh hs
    cases p with
    | beforeTrain =>
      have hb := beforeTrainLoop_initialized s cbs ctx fresh hs
      have hz := countCreate_eq_zero hb.2.2
      simp only [runPhases, runPhase]
      rw [hb.1]
      have ihs := ih ctx (beforeTrainLoop ctx fresh cbs).fresh hs
      refine ⟨ihs.1, ?_⟩
      simp only [countCreate] at hz ihs ⊢
      simp [List.countP_append, hz, ihs.2]
    | afterTrain =>
      have hz := countCreate_eq_zero (createFree_afterTrain cbs)
      have ihs := ih ctx fresh hs
      simp only [runPhases, runPhase]
      refine ⟨ihs.1, ?_⟩
      simp only [countCreate] at hz ihs ⊢
      simp [List.countP_append, hz, ihs.2]
    | triggerStep =>
      have hz := countCreate_eq_zero (createFree_triggerStep cbs)
      have ihs := ih ctx fresh hs
      simp only [runPhases, runPhase]
      refine ⟨ihs.1, ?_⟩
      simp only [countCreate] at hz ihs ⊢
      simp [List.countP_append, hz, ihs.2]
    | triggerEpoch ckpt rt =>
      have hz := countCreate_eq_zero
        (createFree_epochLoop ctx ckpt rt cbs CallbackTimeLogger.init false)
      have ihs := ih ctx fresh hs
      simp only [runPhases, runPhase]
      refine ⟨ihs.1, ?_⟩
      simp only [countCreate] at hz ihs ⊢
      simp [List.countP_append, hz, ihs.2]

/-- From the uninitialized context, any sequence of driver phases
constructs the test session at most once. -/
theorem runPhases_create_le_one (cbs : List Callback) :
    ∀ (phases : List Phase) (ctx : TestCallbackContext) (fresh : Nat),
      ctx.sess = none →
      countCreate (runPhases cbs ctx fresh phases).evs ≤ 1 := by
  intro phases
  induction phases with
  | nil => intro ctx fresh hs; simp [runPhases, countCreate]
  | cons p ps ih =>
    intro ctx fresh hs
    cases p with
    | beforeTrain =>
      rcases beforeTrainLoop_uninitialized cbs ctx fresh hs with
        ⟨l1, l2, l3⟩ | ⟨⟨s, hsess⟩, hcount⟩
      · have ihs := ih ctx (beforeTrainLoop ctx fresh cbs).fresh hs
        simp only [runPhases, runPhase]
        rw [l1]
        simp only [countCreate] at l3 ihs ⊢
        simp only [List.countP_append, l3, Nat.zero_add]
        exact ihs
      · have ihs := runPhases_initialized s cbs ps
          (beforeTrainLoop ctx fresh cbs).ctx
          (beforeTrainLoop ctx fresh cbs).fresh hsess
        simp only [runPhases, runPhase]
        simp only [countCreate] at hcount ihs ⊢
        simp [List.countP_append, hcount, ihs.2]
    | afterTrain =>
      have hz := countCreate_eq_zero (createFree_afterTrain cbs)
      have ihs := ih ctx fresh hs
      simp only [runPhases, runPhase]
      simp only [countCreate] at hz ihs ⊢
      simp only [List.countP_append, hz, Nat.zero_add]
      exact ihs
    | triggerStep =>
      have hz := countCreate_eq_zero (createFree_triggerStep cbs)
      have ihs := ih ctx fresh hs
      simp only [runPhases, runPhase]
      simp only [countCreate] at hz ihs ⊢
      simp only [List.countP_append, hz, Nat.zero_add]
      exact ihs
    | triggerEpoch ckpt rt =>
      have hz := countCreate_eq_zero
        (createFree_epochLoop ctx ckpt rt cbs CallbackTimeLogger.init false)
      have ihs := ih ctx fresh hs
      simp only [runPhases, runPhase]
      simp only [countCreate] at hz ihs ⊢
      simp only [List.countP_append, hz, Nat.zero_add]
      exact ihs

/-- Claim C3: the first `before_train_context` entry on an uninitialized
context constructs the test session, graph and saver; every entry on an
initialized context returns the very same stored context with no
construction event (the same session and graph instances are reused); and
over any sequence of driver phases started from the fresh group state, the
test session is constructed at most once in the whole process lifetime. -/
theorem secondary_context_built_once :
    (∀ (ctx : TestCallbackContext) (fresh : Nat), ctx.sess = none →
      TestCallbackContext.before_train_context ctx fresh =
        ⟨⟨some fresh, some fresh, some fresh⟩, fresh + 1,
          [Event.createTestSession fresh]⟩) ∧
    (∀ (ctx : TestCallbackContext) (s : Nat) (fresh : Nat), ctx.sess = some s →
      TestCallbackContext.before_train_context ctx fresh = ⟨ctx, fresh, []⟩) ∧
    ∀ (cbs : List Callback) (phases : List Phase),
      countCreate (runPhases cbs TestCallbackContext.init 0 phases).evs ≤ 1 := by
  refine ⟨?_, ?_, ?_⟩
  · intro ctx fresh h
    simp [TestCallbackContext.before_train_context, h]
  · intro ctx s fresh h
    simp [TestCallbackContext.before_train_context, h]
  · intro cbs phases
    exact runPhases_create_le_one cbs phases TestCallbackContext.init 0 rfl

/-- Witness for claim C3: a first entry from the fresh context constructs,
and an entry on an already-initialized context reuses it unchanged. -/
theorem secondary_context_built_once_witness :
    TestCallbackContext.init.sess = none ∧
    TestCallbackContext.before_train_context TestCallbackContext.init 0 =
      ⟨⟨some 0, some 0, some 0⟩, 1, [Event.createTestSession 0]⟩ ∧
    (⟨some 7, some 7, some 7⟩ : TestCallbackContext).sess = some 7 ∧
    TestCallbackContext.before_train_context ⟨some 7, some 7, some 7⟩ 9 =
      ⟨⟨some 7, some 7, some 7⟩, 9, []⟩ :=
  ⟨rfl, secondary_context_built_once.1 TestCallbackContext.init 0 rfl, rfl,
    secondary_context_built_once.2.1 ⟨some 7, some 7, some 7⟩ 7 9 rfl⟩
